import Mathlib

/-!
Shallow embedding of the cuML multi-node multi-GPU (MNMG) OLS and Ridge
regression orchestration (`src/cpp/src/glm/ols_mg.cu` and
`src/cpp/src/glm/ridge_mg.cu`) together with the dense-algebra collaborator
primitives they consume.  The C++ floating scalar `T` is modelled by the exact
rationals `ℚ`; device buffers of length `n` are modelled by `Fin n → ℚ` or by
`List ℚ`; partitioned (sharded) matrices are lists of blocks, each block a list
of rows.  External collaborators that are not part of this source bundle
(the SVD, the preprocessing, the least-squares primitive) enter as function
parameters, so every theorem quantifies over their behaviour.
-/

namespace CumlMG

/-- Modelled from the spec: `Matrix::setSmallValuesZero(S, len, stream, thres)`
floors values below `thres` in magnitude to exactly zero ("Numerically floor
near-zero singular values in `S` to exactly zero (values below `1e-10` in
magnitude)"). Scalar action on one entry. -/
def setSmallValuesZero (thres s : ℚ) : ℚ :=
  if |s| < thres then 0 else s

/-- Modelled from the spec: `Matrix::matrixVectorBinaryDivSkipZero` with the
return-zero flag — "Form `S / S_nnz` elementwise, treating positions where the
floored `S` is exactly zero as yielding zero rather than attempting division
(explicit divide-by-zero guard)". Scalar action on one entry: numerator `a`
(the floored singular value), denominator `b`. -/
def divSkipZero (a b : ℚ) : ℚ :=
  if a = 0 then 0 else a / b

/-- Modelled from the spec: `Matrix::power` squares a buffer elementwise
(step 2 of the shrinkage solve, "Form `S_nnz = S^2 + alpha`"). -/
def power (x : ℚ) : ℚ := x * x

/-- Modelled from the spec: `LinAlg::addScalar` adds a scalar to each entry. -/
def addScalar (x c : ℚ) : ℚ := x + c

/-- Threshold `thres = T(1e-10)` from `ridgeSolve`
(`src/cpp/src/glm/ridge_mg.cu` line 55), as an exact rational. -/
def thres : ℚ := 1 / 10 ^ 10

/-- The singular-value vector after `Matrix::setSmallValuesZero(S, N, streams[0], thres)`
(`ridge_mg.cu` line 57). -/
def flooredS (N : ℕ) (S : Fin N → ℚ) : Fin N → ℚ :=
  fun i => setSmallValuesZero thres (S i)

/-- The buffer `S_nnz` after `copy; Matrix::power; LinAlg::addScalar(..., alpha[0], ...)`
(`ridge_mg.cu` lines 62-64): `S_nnz i = (floored S i)² + alpha[0]`.  The C++
call reads `alpha[0]`; an alpha list is modelled with `List.headD`. -/
def sNnz (N : ℕ) (S : Fin N → ℚ) (alpha : List ℚ) : Fin N → ℚ :=
  fun i => addScalar (power (flooredS N S i)) (alpha.headD 0)

/-- The buffer `S` after `Matrix::matrixVectorBinaryDivSkipZero(S, S_nnz, ...)`
(`ridge_mg.cu` lines 65-66): the shrinkage ratio `s/(s²+α)` with the
divide-skip-zero guard. -/
def sDivSnnz (N : ℕ) (S : Fin N → ℚ) (alpha : List ℚ) : Fin N → ℚ :=
  fun i => divSkipZero (flooredS N S i) (sNnz N S alpha i)

/-- The buffer `V` after `Matrix::matrixVectorBinaryMult(V, S, N, N, false, true, ...)`
(`ridge_mg.cu` lines 68-69): every column `j` of `V` is scaled by the ratio
vector entry `j` (broadcast along rows). -/
def scaledV (N : ℕ) (S : Fin N → ℚ) (V : Matrix (Fin N) (Fin N) ℚ)
    (alpha : List ℚ) : Matrix (Fin N) (Fin N) ℚ :=
  fun i j => V i j * sDivSnnz N S alpha j

/-- One shard's contribution to `Aᵀ·b`: rows of the shard paired with the
matching label entries, accumulated per output coordinate. -/
def aTbBlock (N : ℕ) (rows : List (Fin N → ℚ)) (bs : List ℚ) : Fin N → ℚ :=
  fun j => ((rows.zip bs).map (fun p => p.1 j * p.2)).sum

/-- Modelled from the spec: `LinAlg::opg::mv_aTb` — "matrix-vector product
accumulation across all ranks' shards (`mv_aTb`)", i.e. the distributed
reduction `Uᵀ·b` summed over the per-rank partition blocks of `U` and the
corresponding label partitions `b` (`ridge_mg.cu` lines 74-75). -/
def mv_aTb (N : ℕ) (U : List (List (Fin N → ℚ))) (b : List (List ℚ)) :
    Fin N → ℚ :=
  fun j => ((U.zip b).map (fun p => aTbBlock N p.1 p.2 j)).sum

/-- Embedding of `ML::Ridge::opg::ridgeSolve` (`ridge_mg.cu` lines 39-81):
floor `S`, form `S_nnz = S²+α`, overwrite `S` with the guarded ratio, scale
`V`'s columns by it, reduce `S_nnz_data = Uᵀ·b` across partitions via
`mv_aTb`, and finally `gemm(V, N, N, S_nnz, w, N, 1)`, i.e.
`w = (scaled V) · S_nnz_data`. -/
def ridgeSolve (N : ℕ) (S : Fin N → ℚ) (V : Matrix (Fin N) (Fin N) ℚ)
    (U : List (List (Fin N → ℚ))) (b : List (List ℚ)) (alpha : List ℚ) :
    Fin N → ℚ :=
  (scaledV N S V alpha).mulVec (mv_aTb N U b)

/-- Result triple of the external distributed SVD primitive
`LinAlg::opg::svdEig(A, ADesc, U, S, V, ...)`: singular values `S`, right
singular vectors `V`, and the partitioned left factor `U` (one block per
input partition). -/
structure SvdOut (N : ℕ) where
  S : Fin N → ℚ
  V : Matrix (Fin N) (Fin N) ℚ
  U : List (List (Fin N → ℚ))
deriving DecidableEq

/-- Embedding of `ML::Ridge::opg::ridgeEig` (`ridge_mg.cu` lines 83-131):
run the distributed SVD of the design-matrix partitions `A` (an external
collaborator, passed as the function `svdEig`), then `ridgeSolve` with the
label partitions `b`. -/
def ridgeEig (N : ℕ) (A : List (List (Fin N → ℚ))) (b : List (List ℚ))
    (alpha : List ℚ)
    (svdEig : List (List (Fin N → ℚ)) → SvdOut N) : Fin N → ℚ :=
  let o := svdEig A
  ridgeSolve N o.S o.V o.U b alpha

/-- Modelled from the spec: `Matrix::RankSizePair` — one entry of the
partition layout, "ordered sequence of (rank, block-size) pairs". -/
structure RankSizePair where
  rank : ℤ
  size : ℕ
deriving DecidableEq

/-- Modelled from the spec: `Matrix::PartDescriptor` — "global row count `M`,
global column count `N`, ordered sequence of (rank, block-size) pairs", plus
the calling rank it was constructed with. -/
structure PartDescriptor where
  M : ℕ
  N : ℕ
  partsToRanks : List RankSizePair
  rank : ℤ
deriving DecidableEq

/-- Modelled from the spec: `PartDescriptor::blocksOwnedBy(rank)` — "the
ordered list of blocks owned by a given rank, preserving relative order". -/
def blocksOwnedBy (r : ℤ) (parts : List RankSizePair) : List RankSizePair :=
  parts.filter (fun p => p.rank == r)

/-- Centering/scaling statistics produced by the external
`GLM::opg::preProcessData` collaborator: the buffers `mu_input`, `mu_labels`,
`norm2_input` of `fit_impl`. -/
structure Stats (N : ℕ) where
  mu_input : Fin N → ℚ
  mu_labels : ℚ
  norm2_input : Fin N → ℚ
deriving DecidableEq

/-- State after the external `GLM::opg::preProcessData` collaborator:
the (centered/scaled) design-matrix partitions and label partitions, plus the
statistics buffers it filled. -/
structure PreOut (N : ℕ) where
  data : List (List (Fin N → ℚ))
  labels : List (List ℚ)
  stats : Stats N
deriving DecidableEq

/-- State after the external `GLM::opg::postProcessData` collaborator:
the rescaled coefficients, the recovered intercept, and the restored
partitions. -/
structure PostOut (N : ℕ) where
  coef : Fin N → ℚ
  intercept : ℚ
  data : List (List (Fin N → ℚ))
  labels : List (List ℚ)
deriving DecidableEq

/-- Outputs of a fit call: the out-parameters `coef` and `intercept`, plus the
final state of the borrowed partition buffers (the call may mutate them during
pre/postprocessing). -/
structure FitResult (N : ℕ) where
  coef : Fin N → ℚ
  intercept : ℚ
  data : List (List (Fin N → ℚ))
  labels : List (List ℚ)
deriving DecidableEq

/-- The `ASSERT(false, ...)` message of the unimplemented-algorithm branches
(identical in `ols_mg.cu` lines 67/72 and `ridge_mg.cu` lines 160/165). -/
def assertNotImplementedMsg : String :=
  "olsFit: no algorithm with this id has been implemented"

/-- Error used to model the out-of-bounds read `streams[0]` performed by the
inner `fit_impl` when the stream array is empty. -/
def streamsOutOfBoundsMsg : String := "streams[0] out of bounds"

/-- Statistics value of the never-resized, never-filled buffers when
`fit_intercept` is false (preprocessing skipped). -/
def emptyStats (N : ℕ) : Stats N :=
  ⟨fun _ => 0, 0, fun _ => 0⟩

namespace Ridge

/-- Embedding of the inner `ML::Ridge::opg::fit_impl` (`ridge_mg.cu` lines
133-176).  The constructions `device_buffer<T> mu_input(allocator, streams[0])`
read `streams[0]` unconditionally, modelled by the leading `streams.head?`
match; then: optional preprocessing, the `algo` dispatch with its fatal
`ASSERT` branches, the eigen solve, and optional postprocessing or
`*intercept = T(0)`.  The external collaborators `preProcessData`,
`postProcessData` and `svdEig` are parameters. -/
def fit_impl (N : ℕ) (data : List (List (Fin N → ℚ))) (labels : List (List ℚ))
    (alpha : List ℚ) (fit_intercept normalize : Bool) (algo : ℤ)
    (streams : List ℕ)
    (preProcessData : List (List (Fin N → ℚ)) → List (List ℚ) → Bool → Bool →
      PreOut N)
    (postProcessData : List (List (Fin N → ℚ)) → List (List ℚ) →
      (Fin N → ℚ) → Stats N → Bool → Bool → PostOut N)
    (svdEig : List (List (Fin N → ℚ)) → SvdOut N) :
    Except String (FitResult N) :=
  match streams.head? with
  | none => .error streamsOutOfBoundsMsg
  | some _ =>
    let pp : PreOut N :=
      if fit_intercept then
        preProcessData data labels fit_intercept normalize
      else ⟨data, labels, emptyStats N⟩
    if algo = 0 ∨ N = 1 then .error assertNotImplementedMsg
    else if algo = 1 then
      let coef := ridgeEig N pp.data pp.labels alpha svdEig
      if fit_intercept then
        let po := postProcessData pp.data pp.labels coef pp.stats
          fit_intercept normalize
        .ok ⟨po.coef, po.intercept, po.data, po.labels⟩
      else
        .ok ⟨coef, 0, pp.data, pp.labels⟩
    else .error assertNotImplementedMsg

/-- Embedding of the outer `ML::Ridge::opg::fit_impl` (`ridge_mg.cu` lines
195-223): it sizes the stream array to `input_desc.blocksOwnedBy(rank).size()`
and calls the inner `fit_impl`.  `rank` comes from the communicator. -/
def fit (N : ℕ) (data : List (List (Fin N → ℚ))) (labels : List (List ℚ))
    (alpha : List ℚ) (fit_intercept normalize : Bool) (algo : ℤ)
    (rank : ℤ) (parts : List RankSizePair)
    (preProcessData : List (List (Fin N → ℚ)) → List (List ℚ) → Bool → Bool →
      PreOut N)
    (postProcessData : List (List (Fin N → ℚ)) → List (List ℚ) →
      (Fin N → ℚ) → Stats N → Bool → Bool → PostOut N)
    (svdEig : List (List (Fin N → ℚ)) → SvdOut N) :
    Except String (FitResult N) :=
  let n_streams := (blocksOwnedBy rank parts).length
  fit_impl N data labels alpha fit_intercept normalize algo
    (List.range n_streams) preProcessData postProcessData svdEig

end Ridge

namespace OLS

/-- Embedding of the inner `ML::OLS::opg::fit_impl` (`ols_mg.cu` lines 37-83).
Identical orchestration to the ridge fit, except the `algo == 1` branch calls
the external least-squares primitive `LinAlg::opg::lstsqEig` (a parameter)
and there is no alpha. -/
def fit_impl (N : ℕ) (data : List (List (Fin N → ℚ))) (labels : List (List ℚ))
    (fit_intercept normalize : Bool) (algo : ℤ)
    (streams : List ℕ)
    (preProcessData : List (List (Fin N → ℚ)) → List (List ℚ) → Bool → Bool →
      PreOut N)
    (postProcessData : List (List (Fin N → ℚ)) → List (List ℚ) →
      (Fin N → ℚ) → Stats N → Bool → Bool → PostOut N)
    (lstsqEig : List (List (Fin N → ℚ)) → List (List ℚ) → (Fin N → ℚ)) :
    Except String (FitResult N) :=
  match streams.head? with
  | none => .error streamsOutOfBoundsMsg
  | some _ =>
    let pp : PreOut N :=
      if fit_intercept then
        preProcessData data labels fit_intercept normalize
      else ⟨data, labels, emptyStats N⟩
    if algo = 0 ∨ N = 1 then .error assertNotImplementedMsg
    else if algo = 1 then
      let coef := lstsqEig pp.data pp.labels
      if fit_intercept then
        let po := postProcessData pp.data pp.labels coef pp.stats
          fit_intercept normalize
        .ok ⟨po.coef, po.intercept, po.data, po.labels⟩
      else
        .ok ⟨coef, 0, pp.data, pp.labels⟩
    else .error assertNotImplementedMsg

/-- Embedding of the outer `ML::OLS::opg::fit_impl` (`ols_mg.cu` lines
98-123): stream array sized to `input_desc.blocksOwnedBy(rank).size()`, then
the inner `fit_impl`. -/
def fit (N : ℕ) (data : List (List (Fin N → ℚ))) (labels : List (List ℚ))
    (fit_intercept normalize : Bool) (algo : ℤ)
    (rank : ℤ) (parts : List RankSizePair)
    (preProcessData : List (List (Fin N → ℚ)) → List (List ℚ) → Bool → Bool →
      PreOut N)
    (postProcessData : List (List (Fin N → ℚ)) → List (List ℚ) →
      (Fin N → ℚ) → Stats N → Bool → Bool → PostOut N)
    (lstsqEig : List (List (Fin N → ℚ)) → List (List ℚ) → (Fin N → ℚ)) :
    Except String (FitResult N) :=
  let n_streams := (blocksOwnedBy rank parts).length
  fit_impl N data labels fit_intercept normalize algo
    (List.range n_streams) preProcessData postProcessData lstsqEig

end OLS

/-- Modelled from the spec: the `LinAlg::gemm(input, size, N, coef, preds,
size, 1, CUBLAS_OP_N, CUBLAS_OP_N, 1, 0, ...)` call of `predict_impl` — the
matrix-vector product of a block's `size × N` design rows with the length-`N`
coefficient vector.  A block buffer is a list of rows; `gemm` reads exactly
`size` rows from it. -/
def blockGemv (size : ℕ) (rows : List (List ℚ)) (coef : List ℚ) : List ℚ :=
  (rows.take size).map (fun r => (List.zipWith (fun a b => a * b) r coef).sum)

/-- Modelled from the spec: the `LinAlg::addScalar(preds, preds, intercept,
size, ...)` call of `predict_impl` — elementwise addition of the scalar
intercept. -/
def addScalarVec (v : List ℚ) (c : ℚ) : List ℚ :=
  v.map (fun x => x + c)

/-- Output of `predict_impl`'s loop body for one block (gemm, then
add-intercept). -/
def blockPred (size : ℕ) (rows : List (List ℚ)) (coef : List ℚ) (icpt : ℚ) :
    List ℚ :=
  addScalarVec (blockGemv size rows coef) icpt

/-- Embedding of the inner `predict_impl`, which is textually identical in
`ols_mg.cu` (lines 125-145) and `ridge_mg.cu` (lines 225-245): the loop reads
`local_blocks = input_desc.partsToRanks` (all blocks of the descriptor — no
ownership filter), and for each index `i` below `input_data.size()` overwrites
`preds[i]` with `blockPred` of block `i`, issuing both operations of block `i`
on stream `i % n_streams`.  The first component is the final state of the
prediction buffers (entries past the processed range keep their input
contents); the second records the stream index chosen for each processed
block. -/
def predict_impl (desc : PartDescriptor) (input_data : List (List (List ℚ)))
    (coef : List ℚ) (intercept : ℚ) (preds : List (List ℚ))
    (n_streams : ℕ) : List (List ℚ) × List ℕ :=
  let written := (desc.partsToRanks.zip input_data).map
    (fun p => blockPred p.1.size p.2 coef intercept)
  (written ++ preds.drop written.length,
   (List.range (desc.partsToRanks.zip input_data).length).map
     (fun i => i % n_streams))

/-- Concatenation of the rows actually read by `predict_impl` from the
supplied blocks (block `i` contributes its first `partsToRanks[i].size`
rows), in block order: the flattened global prediction input. -/
def localRows (desc : PartDescriptor) (input_data : List (List (List ℚ))) :
    List (List ℚ) :=
  ((desc.partsToRanks.zip input_data).map (fun p => p.2.take p.1.size)).flatten

/-- Per-row prediction: dot product with the coefficients plus the
intercept. -/
def rowPred (coef : List ℚ) (icpt : ℚ) (r : List ℚ) : ℚ :=
  (List.zipWith (fun a b => a * b) r coef).sum + icpt

/-- Statement of the spec's wording for the step-5 intermediate of the ridge
shrinkage solve, for comparison with the source: `S_nnz_data` claimed equal to
`diag(S/S_nnz) · Uᵀ · b` (the only vector-valued reading of the spec formula
`(S/S_nnz)ᵀ · Uᵀ · b`). -/
def specSnnzData (N : ℕ) (S : Fin N → ℚ) (alpha : List ℚ)
    (U : List (List (Fin N → ℚ))) (b : List (List ℚ)) : Fin N → ℚ :=
  fun j => sDivSnnz N S alpha j * mv_aTb N U b j

/-- Statement of claim C9 as written: the cross-rank reduction produces
`S_nnz_data = diag(S/S_nnz)·Uᵀ·b` and the final coefficient is
`w = V · S_nnz_data`. -/
def claimC9prop : Prop :=
  ∀ (N : ℕ) (S : Fin N → ℚ) (V : Matrix (Fin N) (Fin N) ℚ)
    (U : List (List (Fin N → ℚ))) (b : List (List ℚ)) (alpha : List ℚ),
    mv_aTb N U b = specSnnzData N S alpha U b ∧
    ridgeSolve N S V U b alpha = V.mulVec (specSnnzData N S alpha U b)

/-- Statement of claim C2's final clause as written: a Ridge fit call
proceeds past the dispatch (returns a result rather than aborting) only when
`algo = 1` and `N > 1`. -/
def claimC2prop : Prop :=
  ∀ (N : ℕ) (data : List (List (Fin N → ℚ))) (labels : List (List ℚ))
    (alpha : List ℚ) (fi norm : Bool) (algo : ℤ) (streams : List ℕ)
    (pre : List (List (Fin N → ℚ)) → List (List ℚ) → Bool → Bool → PreOut N)
    (post : List (List (Fin N → ℚ)) → List (List ℚ) → (Fin N → ℚ) →
      Stats N → Bool → Bool → PostOut N)
    (svd : List (List (Fin N → ℚ)) → SvdOut N) (r : FitResult N),
    Ridge.fit_impl N data labels alpha fi norm algo streams pre post svd =
      .ok r →
    algo = 1 ∧ 1 < N

/-- Statement of claim C4 as written: during predict, prediction output
buffers whose block is recorded as owned by a rank other than the calling
rank are left unchanged by the call. -/
def claimC4prop : Prop :=
  ∀ (desc : PartDescriptor) (input_data : List (List (List ℚ)))
    (coef : List ℚ) (icpt : ℚ) (preds : List (List ℚ)) (ns : ℕ) (i : ℕ)
    (hi : i < desc.partsToRanks.length),
    (desc.partsToRanks.get ⟨i, hi⟩).rank ≠ desc.rank →
    ((predict_impl desc input_data coef icpt preds ns).1.get? i =
      preds.get? i)

/-- Statement of claim C1 as written: for every ridge eigen solve, the
coefficient vector equals `V · diag(s/(s² + alpha[0])) · Uᵀ · b` with `U`,
`S`, `V` the outputs of the distributed SVD — with no proviso about the
magnitude of the singular values. -/
def claimC1prop : Prop :=
  ∀ (N : ℕ) (A : List (List (Fin N → ℚ))) (b : List (List ℚ))
    (alpha : List ℚ) (svdEig : List (List (Fin N → ℚ)) → SvdOut N),
    ridgeEig N A b alpha svdEig =
      ((svdEig A).V *
        Matrix.diagonal (fun j => (svdEig A).S j /
          ((svdEig A).S j ^ 2 + alpha.headD 0))).mulVec
        (mv_aTb N (svdEig A).U b)

/-- Concrete SVD collaborator whose singular value `1e-11` lies below the
flooring threshold: `V` all ones, `U` the input partitions themselves. -/
def svdTiny : List (List (Fin 1 → ℚ)) → SvdOut 1 :=
  fun A => ⟨fun _ => 1 / 10 ^ 11, fun _ _ => 1, A⟩

/-- Trivial concrete preprocessing collaborator used by concrete
evaluations. -/
def preTriv (N : ℕ) : List (List (Fin N → ℚ)) → List (List ℚ) → Bool →
    Bool → PreOut N :=
  fun d l _ _ => ⟨d, l, emptyStats N⟩

/-- Concrete postprocessing collaborator: returns the coefficients unchanged
and the label mean as intercept, restoring the partitions unchanged. -/
def postTriv (N : ℕ) : List (List (Fin N → ℚ)) → List (List ℚ) →
    (Fin N → ℚ) → Stats N → Bool → Bool → PostOut N :=
  fun d l c st _ _ => ⟨c, st.mu_labels, d, l⟩

/-- Concrete SVD collaborator: all singular values 1, `V` the identity, `U`
the input partitions themselves. -/
def svdTriv (N : ℕ) : List (List (Fin N → ℚ)) → SvdOut N :=
  fun A => ⟨fun _ => 1, 1, A⟩

/-- Concrete least-squares collaborator returning the zero coefficient
vector. -/
def lstsqTriv (N : ℕ) : List (List (Fin N → ℚ)) → List (List ℚ) →
    (Fin N → ℚ) :=
  fun _ _ _ => 0

/-- Claim C3: in the ridge shrinkage solve, every singular value whose magnitude is
below `1e-10` is floored to exactly zero, and at every such position the
subsequent ratio `S/(S²+alpha)` is exactly `0` (division skipped by the
divide-skip-zero guard), for every input `S` vector and every alpha list. -/
theorem floored_singular_ratio_zero (N : ℕ) (S : Fin N → ℚ) (alpha : List ℚ)
    (i : Fin N) (h : |S i| < thres) :
    flooredS N S i = 0 ∧ sDivSnnz N S alpha i = 0 := by
  have h0 : flooredS N S i = 0 := by
    simp [flooredS, setSmallValuesZero, h]
  exact ⟨h0, by simp [sDivSnnz, divSkipZero, h0]⟩

theorem floored_singular_ratio_zero_witness :
    |((fun _ => 1 / 10 ^ 11 : Fin 1 → ℚ) 0)| < thres ∧
      (flooredS 1 (fun _ => 1 / 10 ^ 11) 0 = 0 ∧
        sDivSnnz 1 (fun _ => 1 / 10 ^ 11) [5] 0 = 0) :=
  ⟨by rw [show |((fun _ => 1 / 10 ^ 11 : Fin 1 → ℚ) 0)| = 1 / 10 ^ 11 from
      abs_of_pos (by norm_num)]; norm_num [thres],
   floored_singular_ratio_zero 1 (fun _ => 1 / 10 ^ 11) [5] 0
     (by rw [show |((fun _ => 1 / 10 ^ 11 : Fin 1 → ℚ) 0)| = 1 / 10 ^ 11 from
        abs_of_pos (by norm_num)]; norm_num [thres])⟩

/-- Claim C7: ridge fit outputs depend on the alpha array only through its entry at
index 0 — two calls on identical data and collaborators whose alpha lists
share the same head produce identical results, whatever the lists' lengths
and later entries. -/
theorem ridge_fit_alpha_head_only (N : ℕ) (data : List (List (Fin N → ℚ)))
    (labels : List (List ℚ)) (a : ℚ) (t1 t2 : List ℚ) (fi norm : Bool)
    (algo : ℤ) (streams : List ℕ)
    (pre : List (List (Fin N → ℚ)) → List (List ℚ) → Bool → Bool → PreOut N)
    (post : List (List (Fin N → ℚ)) → List (List ℚ) → (Fin N → ℚ) →
      Stats N → Bool → Bool → PostOut N)
    (svd : List (List (Fin N → ℚ)) → SvdOut N) :
    Ridge.fit_impl N data labels (a :: t1) fi norm algo streams pre post svd =
      Ridge.fit_impl N data labels (a :: t2) fi norm algo streams pre post
        svd := rfl

/-- Claim C2 (amended): for both OLS and Ridge fit, any `algo` other than 1, and
likewise `N = 1`, makes the call fail with the fatal "not implemented"
assertion before any solver runs (the conclusion holds for every solver
collaborator, so no silent fallback occurs), while `algo = 1` with `N ≠ 1`
always proceeds to the eigen-based solve and produces a result. -/
theorem fit_dispatch_not_implemented (N : ℕ)
    (data : List (List (Fin N → ℚ))) (labels : List (List ℚ))
    (alpha : List ℚ) (fi norm : Bool) (algo : ℤ) (s : ℕ) (ss : List ℕ)
    (pre : List (List (Fin N → ℚ)) → List (List ℚ) → Bool → Bool → PreOut N)
    (post : List (List (Fin N → ℚ)) → List (List ℚ) → (Fin N → ℚ) →
      Stats N → Bool → Bool → PostOut N)
    (svd : List (List (Fin N → ℚ)) → SvdOut N)
    (lstsq : List (List (Fin N → ℚ)) → List (List ℚ) → (Fin N → ℚ)) :
    ((algo ≠ 1 ∨ N = 1) →
      Ridge.fit_impl N data labels alpha fi norm algo (s :: ss) pre post svd =
        .error assertNotImplementedMsg ∧
      OLS.fit_impl N data labels fi norm algo (s :: ss) pre post lstsq =
        .error assertNotImplementedMsg) ∧
    ((algo = 1 ∧ N ≠ 1) →
      (∃ r, Ridge.fit_impl N data labels alpha fi norm algo (s :: ss) pre
        post svd = .ok r) ∧
      (∃ r, OLS.fit_impl N data labels fi norm algo (s :: ss) pre post
        lstsq = .ok r)) := by
  constructor
  · intro h
    constructor
    · simp only [Ridge.fit_impl, List.head?]
      by_cases hN1 : N = 1
      · rw [if_pos (Or.inr hN1)]
      · rcases h with halgo | h1
        · by_cases h0 : algo = 0
          · rw [if_pos (Or.inl h0)]
          · rw [if_neg (by simp [h0, hN1]), if_neg halgo]
        · exact absurd h1 hN1
    · simp only [OLS.fit_impl, List.head?]
      by_cases hN1 : N = 1
      · rw [if_pos (Or.inr hN1)]
      · rcases h with halgo | h1
        · by_cases h0 : algo = 0
          · rw [if_pos (Or.inl h0)]
          · rw [if_neg (by simp [h0, hN1]), if_neg halgo]
        · exact absurd h1 hN1
  · rintro ⟨h1, hN⟩
    subst h1
    have hcond : ¬((1 : ℤ) = 0 ∨ N = 1) := by simp [hN]
    constructor
    · cases fi
      · exact ⟨⟨ridgeEig N data labels alpha svd, 0, data, labels⟩, by
          simp [Ridge.fit_impl, List.head?, hcond, hN]⟩
      · exact ⟨_, by simp [Ridge.fit_impl, List.head?, hcond, hN]; rfl⟩
    · cases fi
      · exact ⟨⟨lstsq data labels, 0, data, labels⟩, by
          simp [OLS.fit_impl, List.head?, hcond, hN]⟩
      · exact ⟨_, by simp [OLS.fit_impl, List.head?, hcond, hN]; rfl⟩

theorem fit_dispatch_not_implemented_witness :
    (((2 : ℤ) ≠ 1 ∨ (3 : ℕ) = 1) ∧
      Ridge.fit_impl 3 [] [] [1] false false 2 [0] (preTriv 3) (postTriv 3)
        (svdTriv 3) = .error assertNotImplementedMsg ∧
      OLS.fit_impl 3 [] [] false false 2 [0] (preTriv 3) (postTriv 3)
        (lstsqTriv 3) = .error assertNotImplementedMsg) :=
  ⟨Or.inl (by decide),
   (fit_dispatch_not_implemented 3 [] [] [1] false false 2 0 [] (preTriv 3)
      (postTriv 3) (svdTriv 3) (lstsqTriv 3)).1 (Or.inl (by decide))⟩

/-- Claim C2 (counterexample): the claim that only `algo = 1` with `N > 1` proceeds
to the eigen-based solve is false — a ridge fit call with `algo = 1` on a
zero-column design matrix (`N = 0`, which is not `> 1` and escapes the
`algo == 0 || N == 1` assert) also proceeds and returns a result. -/
theorem dispatch_only_Ngt1_false : ¬ claimC2prop := by
  intro h
  have h2 := h 0 [] [] [1] false false 1 [0] (preTriv 0) (postTriv 0)
    (svdTriv 0) ⟨ridgeEig 0 [] [] [1] (svdTriv 0), 0, [], []⟩ rfl
  exact absurd h2.2 (by decide)

/-- Claim C5: for every OLS or Ridge fit call with `fit_intercept = false` that
returns, the intercept output is exactly zero and the partition data and
labels are passed through untouched (no pre/postprocessing), whatever the
data, labels, normalize flag, alpha, and collaborator behaviour. -/
theorem fit_no_intercept_zero (N : ℕ) (data : List (List (Fin N → ℚ)))
    (labels : List (List ℚ)) (alpha : List ℚ) (norm : Bool) (algo : ℤ)
    (streams : List ℕ)
    (pre : List (List (Fin N → ℚ)) → List (List ℚ) → Bool → Bool → PreOut N)
    (post : List (List (Fin N → ℚ)) → List (List ℚ) → (Fin N → ℚ) →
      Stats N → Bool → Bool → PostOut N)
    (svd : List (List (Fin N → ℚ)) → SvdOut N)
    (lstsq : List (List (Fin N → ℚ)) → List (List ℚ) → (Fin N → ℚ))
    (rR rO : FitResult N)
    (hR : Ridge.fit_impl N data labels alpha false norm algo streams pre post
      svd = .ok rR)
    (hO : OLS.fit_impl N data labels false norm algo streams pre post lstsq =
      .ok rO) :
    (rR.intercept = 0 ∧ rR.data = data ∧ rR.labels = labels) ∧
    (rO.intercept = 0 ∧ rO.data = data ∧ rO.labels = labels) := by
  constructor
  · cases streams with
    | nil => simp [Ridge.fit_impl] at hR
    | cons s ss =>
      simp only [Ridge.fit_impl, List.head?, Bool.false_eq_true, if_false] at hR
      split_ifs at hR
      injection hR with h
      subst h
      exact ⟨rfl, rfl, rfl⟩
  · cases streams with
    | nil => simp [OLS.fit_impl] at hO
    | cons s ss =>
      simp only [OLS.fit_impl, List.head?, Bool.false_eq_true, if_false] at hO
      split_ifs at hO
      injection hO with h
      subst h
      exact ⟨rfl, rfl, rfl⟩

theorem fit_no_intercept_zero_witness :
    (Ridge.fit_impl 2 [] [] [3] false true 1 [0] (preTriv 2) (postTriv 2)
        (svdTriv 2) = .ok ⟨ridgeEig 2 [] [] [3] (svdTriv 2), 0, [], []⟩) ∧
    (OLS.fit_impl 2 [] [] false true 1 [0] (preTriv 2) (postTriv 2)
        (lstsqTriv 2) = .ok ⟨lstsqTriv 2 [] [], 0, [], []⟩) ∧
    ((FitResult.intercept ⟨ridgeEig 2 [] [] [3] (svdTriv 2), 0, [], []⟩ = 0 ∧
        FitResult.data (N := 2) ⟨ridgeEig 2 [] [] [3] (svdTriv 2), 0, [], []⟩ =
          [] ∧
        FitResult.labels (N := 2)
          ⟨ridgeEig 2 [] [] [3] (svdTriv 2), 0, [], []⟩ = []) ∧
      (FitResult.intercept ⟨lstsqTriv 2 [] [], 0, [], []⟩ = 0 ∧
        FitResult.data (N := 2) ⟨lstsqTriv 2 [] [], 0, [], []⟩ = [] ∧
        FitResult.labels (N := 2) ⟨lstsqTriv 2 [] [], 0, [], []⟩ = [])) :=
  ⟨rfl, rfl,
   fit_no_intercept_zero 2 [] [] [3] true 1 [0] (preTriv 2) (postTriv 2)
     (svdTriv 2) (lstsqTriv 2) _ _ rfl rfl⟩

/-- Claim C10: OLS and Ridge fit size their stream array to the number of partition
blocks the calling rank owns, and the inner fit reads `streams[0]`
unconditionally, so index 0 is in bounds exactly when the rank owns at least
one block; a rank owning zero blocks makes the call fail on that access. -/
theorem fit_requires_owned_block (N : ℕ) (data : List (List (Fin N → ℚ)))
    (labels : List (List ℚ)) (alpha : List ℚ) (fi norm : Bool) (algo : ℤ)
    (rank : ℤ) (parts : List RankSizePair)
    (pre : List (List (Fin N → ℚ)) → List (List ℚ) → Bool → Bool → PreOut N)
    (post : List (List (Fin N → ℚ)) → List (List ℚ) → (Fin N → ℚ) →
      Stats N → Bool → Bool → PostOut N)
    (svd : List (List (Fin N → ℚ)) → SvdOut N)
    (lstsq : List (List (Fin N → ℚ)) → List (List ℚ) → (Fin N → ℚ)) :
    ((List.range (blocksOwnedBy rank parts).length).head?.isSome ↔
      1 ≤ (blocksOwnedBy rank parts).length) ∧
    ((blocksOwnedBy rank parts).length = 0 →
      Ridge.fit N data labels alpha fi norm algo rank parts pre post svd =
        .error streamsOutOfBoundsMsg ∧
      OLS.fit N data labels fi norm algo rank parts pre post lstsq =
        .error streamsOutOfBoundsMsg) := by
  constructor
  · cases h : blocksOwnedBy rank parts with
    | nil => simp [h]
    | cons p ps => simp [List.range_succ_eq_map]
  · intro h0
    rw [Ridge.fit, OLS.fit, h0]
    exact ⟨rfl, rfl⟩

theorem fit_requires_owned_block_witness :
    (blocksOwnedBy 1 [⟨0, 5⟩]).length = 0 ∧
    Ridge.fit 2 [] [] [3] true true 1 1 [⟨0, 5⟩] (preTriv 2) (postTriv 2)
      (svdTriv 2) = .error streamsOutOfBoundsMsg :=
  ⟨rfl,
   ((fit_requires_owned_block 2 [] [] [3] true true 1 1 [⟨0, 5⟩] (preTriv 2)
      (postTriv 2) (svdTriv 2) (lstsqTriv 2)).2 rfl).1⟩

/-- Helper: the value written by `predict_impl` at block index `i`, and the
stream it was issued on. -/
theorem predict_get (desc : PartDescriptor) (data : List (List (List ℚ)))
    (coef : List ℚ) (icpt : ℚ) (preds : List (List ℚ)) (ns : ℕ) (i : ℕ)
    (hi : i < desc.partsToRanks.length) (hd : i < data.length) :
    (predict_impl desc data coef icpt preds ns).1[i]? =
      some (blockPred (desc.partsToRanks[i]).size (data[i]) coef icpt) ∧
    (predict_impl desc data coef icpt preds ns).2[i]? = some (i % ns) := by
  have hz : i < (desc.partsToRanks.zip data).length := by
    rw [List.length_zip]; omega
  constructor
  · simp only [predict_impl]
    rw [List.getElem?_append, if_pos (by simpa using hz), List.getElem?_map,
      List.getElem?_eq_getElem hz, List.getElem_zip]
    rfl
  · simp only [predict_impl]
    rw [List.getElem?_map, List.getElem?_eq_getElem (by simpa using hz),
      List.getElem_range]
    rfl

/-- Claim C6: for every processed block `i`, the prediction buffer is set to the
matrix-vector product of the block's `local_size × N` rows with the
coefficient vector followed by elementwise addition of the scalar intercept,
and both operations of block `i` are issued on stream `i % n_streams`. -/
theorem predict_block_formula_stream (desc : PartDescriptor)
    (data : List (List (List ℚ))) (coef : List ℚ) (icpt : ℚ)
    (preds : List (List ℚ)) (ns : ℕ) (i : ℕ)
    (hi : i < desc.partsToRanks.length) (hd : i < data.length) :
    (predict_impl desc data coef icpt preds ns).1[i]? =
      some (addScalarVec (blockGemv (desc.partsToRanks[i]).size (data[i])
        coef) icpt) ∧
    (predict_impl desc data coef icpt preds ns).2[i]? = some (i % ns) :=
  predict_get desc data coef icpt preds ns i hi hd

theorem predict_block_formula_stream_witness :
    (1 : ℕ) < ([⟨0, 1⟩, ⟨1, 2⟩] : List RankSizePair).length ∧
    (predict_impl ⟨3, 1, [⟨0, 1⟩, ⟨1, 2⟩], 0⟩ [[[2]], [[3], [4]]] [5] 1
        [[0], [0, 0]] 2).1[1]? =
      some (addScalarVec (blockGemv 2 [[3], [4]] [5]) 1) ∧
    (predict_impl ⟨3, 1, [⟨0, 1⟩, ⟨1, 2⟩], 0⟩ [[[2]], [[3], [4]]] [5] 1
        [[0], [0, 0]] 2).2[1]? = some (1 % 2) :=
  ⟨by decide,
   (predict_block_formula_stream ⟨3, 1, [⟨0, 1⟩, ⟨1, 2⟩], 0⟩
     [[[2]], [[3], [4]]] [5] 1 [[0], [0, 0]] 2 1 (by decide) (by decide)).1,
   (predict_block_formula_stream ⟨3, 1, [⟨0, 1⟩, ⟨1, 2⟩], 0⟩
     [[[2]], [[3], [4]]] [5] 1 [[0], [0, 0]] 2 1 (by decide) (by decide)).2⟩

/-- Claim C4 (counterexample): predict does not leave the buffers of blocks owned
by other ranks unchanged — with two supplied blocks, the second recorded as
owned by rank 1 while the calling rank is 0, the second output buffer is
overwritten. -/
theorem predict_ownership_claim_false : ¬ claimC4prop := by
  intro h
  have h2 := h ⟨2, 1, [⟨0, 1⟩, ⟨1, 1⟩], 0⟩ [[[1]], [[1]]] [1] 0 [[5], [7]] 2 1
    (by decide) (by decide)
  have hL : (predict_impl ⟨2, 1, [⟨0, 1⟩, ⟨1, 1⟩], 0⟩ [[[1]], [[1]]] [1] 0
      [[5], [7]] 2).1.get? 1 = some [1] := by
    norm_num [predict_impl, blockPred, blockGemv, addScalarVec]
  rw [hL] at h2
  norm_num at h2

/-- Claim C4 (amended): the calling rank processes every partition block supplied
to the predict call, writing its prediction buffer, even when the block is
recorded as owned by a different rank — there is no ownership filter. -/
theorem predict_processes_unowned (desc : PartDescriptor)
    (data : List (List (List ℚ))) (coef : List ℚ) (icpt : ℚ)
    (preds : List (List ℚ)) (ns : ℕ) (i : ℕ)
    (hi : i < desc.partsToRanks.length) (hd : i < data.length)
    (hrank : (desc.partsToRanks[i]).rank ≠ desc.rank) :
    (predict_impl desc data coef icpt preds ns).1[i]? =
      some (blockPred (desc.partsToRanks[i]).size (data[i]) coef icpt) :=
  (predict_get desc data coef icpt preds ns i hi hd).1

theorem predict_processes_unowned_witness :
    (([⟨0, 1⟩, ⟨1, 1⟩] : List RankSizePair)[1]).rank ≠ 0 ∧
    (predict_impl ⟨2, 1, [⟨0, 1⟩, ⟨1, 1⟩], 0⟩ [[[1]], [[1]]] [1] 0 [[5], [7]]
        2).1[1]? = some (blockPred 1 [[1]] [1] 0) :=
  ⟨by decide,
   predict_processes_unowned ⟨2, 1, [⟨0, 1⟩, ⟨1, 1⟩], 0⟩ [[[1]], [[1]]] [1] 0
     [[5], [7]] 2 1 (by decide) (by decide) (by decide)⟩

/-- Helper: a block's prediction output is the per-row prediction mapped over
the rows the block contributes. -/
theorem blockPred_eq_map (size : ℕ) (rows : List (List ℚ)) (coef : List ℚ)
    (icpt : ℚ) :
    blockPred size rows coef icpt = (rows.take size).map (rowPred coef icpt) := by
  simp only [blockPred, addScalarVec, blockGemv, rowPred, List.map_map]
  rfl

/-- Helper: when the prediction buffer list has exactly one buffer per
processed block, the flattened output of `predict_impl` is the per-row
prediction mapped over the flattened input rows. -/
theorem predict_flatten (desc : PartDescriptor) (data : List (List (List ℚ)))
    (coef : List ℚ) (icpt : ℚ) (preds : List (List ℚ)) (ns : ℕ)
    (hp : preds.length = (desc.partsToRanks.zip data).length) :
    (predict_impl desc data coef icpt preds ns).1.flatten =
      (localRows desc data).map (rowPred coef icpt) := by
  simp only [predict_impl]
  rw [List.drop_eq_nil_of_le (by simp [hp]), List.append_nil]
  simp only [blockPred_eq_map, localRows, List.map_flatten, List.map_map]
  rfl

/-- Claim C8: predict is a pure per-row function of the coefficients, intercept and
that row's own features — two calls whose partition layouts flatten to the
same global row sequence produce the same flattened predictions, whatever the
block structure, leftover buffer contents, or stream counts. -/
theorem predict_partition_invariant (desc1 desc2 : PartDescriptor)
    (data1 data2 : List (List (List ℚ))) (coef : List ℚ) (icpt : ℚ)
    (preds1 preds2 : List (List ℚ)) (ns1 ns2 : ℕ)
    (hp1 : preds1.length = (desc1.partsToRanks.zip data1).length)
    (hp2 : preds2.length = (desc2.partsToRanks.zip data2).length)
    (hrows : localRows desc1 data1 = localRows desc2 data2) :
    (predict_impl desc1 data1 coef icpt preds1 ns1).1.flatten =
      (predict_impl desc2 data2 coef icpt preds2 ns2).1.flatten := by
  rw [predict_flatten desc1 data1 coef icpt preds1 ns1 hp1,
    predict_flatten desc2 data2 coef icpt preds2 ns2 hp2, hrows]

theorem predict_partition_invariant_witness :
    ([[0, 0]] : List (List ℚ)).length =
      ((⟨2, 1, [⟨0, 2⟩], 0⟩ : PartDescriptor).partsToRanks.zip
        [[[1], [2]]]).length ∧
    ([[0], [0]] : List (List ℚ)).length =
      ((⟨2, 1, [⟨0, 1⟩, ⟨1, 1⟩], 0⟩ : PartDescriptor).partsToRanks.zip
        [[[1]], [[2]]]).length ∧
    localRows ⟨2, 1, [⟨0, 2⟩], 0⟩ [[[1], [2]]] =
      localRows ⟨2, 1, [⟨0, 1⟩, ⟨1, 1⟩], 0⟩ [[[1]], [[2]]] ∧
    (predict_impl ⟨2, 1, [⟨0, 2⟩], 0⟩ [[[1], [2]]] [3] 1 [[0, 0]]
        1).1.flatten =
      (predict_impl ⟨2, 1, [⟨0, 1⟩, ⟨1, 1⟩], 0⟩ [[[1]], [[2]]] [3] 1
        [[0], [0]] 2).1.flatten :=
  ⟨rfl, rfl, rfl,
   predict_partition_invariant ⟨2, 1, [⟨0, 2⟩], 0⟩
     ⟨2, 1, [⟨0, 1⟩, ⟨1, 1⟩], 0⟩ [[[1], [2]]] [[[1]], [[2]]] [3] 1 [[0, 0]]
     [[0], [0]] 1 2 rfl rfl rfl⟩

/-- Helper: away from the flooring threshold, the shrinkage ratio is the
plain closed-form ratio `s/(s²+α)`. -/
theorem sDivSnnz_eq (N : ℕ) (S : Fin N → ℚ) (alpha : List ℚ) (i : Fin N)
    (h : thres ≤ |S i|) :
    sDivSnnz N S alpha i = S i / (S i ^ 2 + alpha.headD 0) := by
  have hfl : flooredS N S i = S i := by
    simp [flooredS, setSmallValuesZero, not_lt.2 h]
  have hne : S i ≠ 0 := by
    intro h0
    rw [h0] at h
    norm_num [thres] at h
  simp [sDivSnnz, divSkipZero, hfl, hne, sNnz, power, addScalar, pow_two]

/-- Claim C1 (amended): for every ridge fit call reaching the eigen solve,
the coefficient vector written by the solve equals
`w = V · diag(r) · Uᵀ · b`, where `U`, `S`, `V` come from the distributed
SVD and the diagonal entry is the guarded ratio: `r j = s j / (s j² +
alpha[0])` except at positions with `|s j| < 1e-10`, where the flooring and
the divide-skip-zero guard make `r j` exactly `0`; the solve composes only
elementwise vector operations, a column rescaling of `V` and two
matrix-vector products — no `N×N` inverse occurs. -/
theorem ridgeEig_closed_form (N : ℕ) (A : List (List (Fin N → ℚ)))
    (b : List (List ℚ)) (alpha : List ℚ)
    (svdEig : List (List (Fin N → ℚ)) → SvdOut N) :
    ridgeEig N A b alpha svdEig =
      ((svdEig A).V *
        Matrix.diagonal (fun j =>
          if |(svdEig A).S j| < thres then 0
          else (svdEig A).S j /
            ((svdEig A).S j ^ 2 + alpha.headD 0))).mulVec
        (mv_aTb N (svdEig A).U b) := by
  funext i
  simp only [ridgeEig, ridgeSolve, Matrix.mulVec, Matrix.dotProduct, scaledV]
  refine Finset.sum_congr rfl fun j _ => ?_
  rw [Matrix.mul_diagonal]
  by_cases hj : |(svdEig A).S j| < thres
  · rw [if_pos hj, show sDivSnnz N (svdEig A).S alpha j = 0 from by
      simp [sDivSnnz, divSkipZero, flooredS, setSmallValuesZero, hj]]
  · rw [if_neg hj, sDivSnnz_eq N _ alpha j (not_lt.1 hj)]

/-- Claim C1 (counterexample): the unguarded formula
`V·diag(s/(s²+alpha[0]))·Uᵀ·b` is false for the code once a singular value
falls below the `1e-10` flooring threshold — with a single singular value
`1e-11`, `alpha[0] = 0`, `V = (1)`, `U = ((1))` and `b = (1)`, the solve
floors the value and the guarded ratio is `0`, so the code writes `w = (0)`,
while the claimed formula gives `(1e11)`. -/
theorem ridge_closed_form_claim_false : ¬ claimC1prop := by
  intro h
  have hlt : |(1 : ℚ) / 100000000000| < thres := by
    rw [abs_of_pos (by norm_num)]
    norm_num [thres]
  have h2 := congrFun (h 1 [[fun _ => 1]] [[1]] [0] svdTiny) 0
  norm_num [ridgeEig, ridgeSolve, scaledV, sDivSnnz, sNnz, flooredS,
    setSmallValuesZero, divSkipZero, power, addScalar, svdTiny, mv_aTb,
    aTbBlock, Matrix.mulVec, Matrix.dotProduct, Matrix.mul_diagonal,
    Fin.sum_univ_one] at h2
  simp only [if_pos hlt] at h2
  norm_num at h2

/-- Helper: splitting the leading shard off a concatenated `Aᵀ·b`
contribution, valid when the shard's rows and labels have equal length. -/
theorem aTbBlock_append (N : ℕ) (r1 r2 : List (Fin N → ℚ)) (b1 b2 : List ℚ)
    (h : r1.length = b1.length) (j : Fin N) :
    aTbBlock N (r1 ++ r2) (b1 ++ b2) j =
      aTbBlock N r1 b1 j + aTbBlock N r2 b2 j := by
  simp [aTbBlock, List.zip_append h]

/-- Claim C9 (amended): after scaling `V`'s columns by the ratio vector, the
distributed cross-rank reduction produces `S_nnz_data = Uᵀ·b` — the
blockwise accumulation over all rank-owned partitions of `U` and the label
partitions `b` equals the global product (the ratio factor having already
been absorbed into `V`) — and the final coefficient is
`w = V_scaled · S_nnz_data`. -/
theorem snnz_data_reduction (N : ℕ) (S : Fin N → ℚ)
    (V : Matrix (Fin N) (Fin N) ℚ) (U : List (List (Fin N → ℚ)))
    (b : List (List ℚ)) (alpha : List ℚ)
    (hlen : List.Forall₂
      (fun (u : List (Fin N → ℚ)) (lb : List ℚ) => u.length = lb.length) U b) :
    mv_aTb N U b = aTbBlock N U.flatten b.flatten ∧
    ridgeSolve N S V U b alpha =
      (scaledV N S V alpha).mulVec (mv_aTb N U b) := by
  refine ⟨?_, rfl⟩
  induction hlen with
  | nil => funext j; simp [mv_aTb, aTbBlock]
  | @cons u lb U2 b2 h _ ih =>
    funext j
    simp only [mv_aTb, List.zip_cons_cons, List.map_cons, List.sum_cons,
      List.flatten_cons]
    rw [aTbBlock_append N u U2.flatten lb b2.flatten h j]
    have := congrFun ih j
    simp only [mv_aTb] at this
    rw [this]

theorem snnz_data_reduction_witness :
    List.Forall₂
      (fun (u : List (Fin 1 → ℚ)) (lb : List ℚ) => u.length = lb.length)
      [[fun _ => 1], [fun _ => 2]] [[3], [4]] ∧
    mv_aTb 1 [[fun _ => 1], [fun _ => 2]] [[3], [4]] =
      aTbBlock 1
        ([[fun _ => 1], [fun _ => 2]] : List (List (Fin 1 → ℚ))).flatten
        ([[3], [4]] : List (List ℚ)).flatten := by
  have hl : List.Forall₂
      (fun (u : List (Fin 1 → ℚ)) (lb : List ℚ) => u.length = lb.length)
      [[fun _ => 1], [fun _ => 2]] [[3], [4]] :=
    List.Forall₂.cons rfl (List.Forall₂.cons rfl List.Forall₂.nil)
  exact ⟨hl,
    (snnz_data_reduction 1 (fun _ => 1) 1 [[fun _ => 1], [fun _ => 2]]
      [[3], [4]] [1] hl).1⟩

/-- Claim C9 (counterexample): the reduction does not produce
`diag(S/S_nnz)·Uᵀ·b` — with `S = (1)`, `alpha = 1`, a single partition
`U = ((1))` and label `b = (1)`, the code's `S_nnz_data` is `(1)` while the
claimed formula gives `(1/2)`. -/
theorem snnz_data_claim_false : ¬ claimC9prop := by
  intro h
  have h2 := (h 1 (fun _ => 1) 1 [[fun _ => 1]] [[1]] [1]).1
  have h3 := congrFun h2 0
  norm_num [mv_aTb, aTbBlock, specSnnzData, sDivSnnz, sNnz, flooredS,
    setSmallValuesZero, divSkipZero, power, addScalar, thres] at h3

end CumlMG
